import Mathlib

/-!
Shallow embedding of the Salus ExecutionEngine (executionengine.cpp):
session items, the paging controller `doPaging`, the scheduler-loop
preparation phase and tail, task lifecycle callbacks (`taskStopped`,
`memFailure`, `submitTask`) and `ResourceContext::releaseStaging`.
Machine integers are modelled as Nat/Int; observable calls into client
code (paging callbacks, op cancellation) are modelled as event lists.
-/

/-- Per-session state of `SessionItem` (sessionitem.h), restricted to the
fields the engine code reads and writes: the front `queue` and scheduler
`bgQueue` (operations as numeric ids), the ticket set, whether a paging
callback is registered, the `protectOOM` / `forceEvicted` flags,
`lastScheduled`, `totalExecutedOp`, and the snapshot of
`resourceUsage(srcTag)` that `doPaging` reads. -/
structure SessionItem where
  sessHandle : String
  queue : List Nat
  bgQueue : List Nat
  tickets : List Nat
  hasPagingCb : Bool
  protectOOM : Bool
  forceEvicted : Bool
  lastScheduled : Nat
  totalExecutedOp : Nat
  usage : Nat
deriving DecidableEq

/-- Observable calls `doPaging` makes into session-owner code:
`pagingCb.volunteer(ticket, rctx)` and `pagingCb.forceEvicted()`,
tagged by the session handle. -/
inductive PagingEvent where
  | volunteerCall (sess : String) (ticket : Nat)
  | forceEvictCall (sess : String)
deriving DecidableEq

/-- Environment of `doPaging`: the resource monitor's `sortVictim`,
whether the CPU-side pre-allocation (`makeResourceContext` at the paging
target) succeeds for a given session/victim, and the number of bytes the
session's `volunteer` callback reports as released. -/
structure PagingEnv where
  sortVictim : List Nat → List (Nat × Nat)
  rctxGood : String → Nat → Bool
  volunteerRet : String → Nat → Nat

/-- Descending insertion by `usage`, modelling
`std::sort(candidates, lhs.first > rhs.first)` in `doPaging` step 1. -/
def insertDesc (s : SessionItem) : List SessionItem → List SessionItem
  | [] => [s]
  | t :: ts => if t.usage < s.usage then s :: t :: ts else t :: insertDesc s ts

/-- The sorted candidate list of `doPaging` (descending by usage on the
source device). -/
def sortByUsageDesc : List SessionItem → List SessionItem
  | [] => []
  | s :: ss => insertDesc s (sortByUsageDesc ss)

/-- Inner victim loop of `doPaging` step 2 for one session: for each
`(usage, victim)` pre-allocate a CPU resource context (if it is not good,
return false), then call `volunteer`; a positive release returns true.
Result: events emitted, and `some b` for `return b` or `none` for
falling off the victim list. -/
def volunteerVictims (env : PagingEnv) (sess : SessionItem) :
    List (Nat × Nat) → List PagingEvent × Option Bool
  | [] => ([], none)
  | (_usage, victim) :: rest =>
    if env.rctxGood sess.sessHandle victim then
      if 0 < env.volunteerRet sess.sessHandle victim then
        ([PagingEvent.volunteerCall sess.sessHandle victim], some true)
      else
        let r := volunteerVictims env sess rest
        (PagingEvent.volunteerCall sess.sessHandle victim :: r.1, r.2)
    else ([], some false)

/-- Outer loop of `doPaging` step 2 over `candidates[1..]`: an empty
ticket set breaks out of the loop ("no need to go beyond"); a missing
paging callback continues to the next session; otherwise the victims of
the session are tried. `some b` models `return b`, `none` models
reaching the force-evict phase. -/
def volunteerPhase (env : PagingEnv) :
    List SessionItem → List PagingEvent × Option Bool
  | [] => ([], none)
  | sess :: rest =>
    if sess.tickets.isEmpty then ([], none)
    else if !sess.hasPagingCb then volunteerPhase env rest
    else
      let r := volunteerVictims env sess (env.sortVictim sess.tickets)
      match r.2 with
      | some b => (r.1, some b)
      | none =>
        let r2 := volunteerPhase env rest
        (r.1 ++ r2.1, r2.2)

/-- Result of the force-evict phase: updated candidate list, events, and
the return value of `doPaging`. -/
structure EvictResult where
  sessions : List SessionItem
  events : List PagingEvent
  ret : Bool
deriving DecidableEq

/-- Force-evict phase of `doPaging`: the first candidate (in candidates
order, the largest included) that has a paging callback gets
`protectOOM = false`, `forceEvicted = true` and its `forceEvicted()`
callback invoked, and `doPaging` returns true; with no such candidate it
returns false. -/
def forceEvictPhase : List SessionItem → EvictResult
  | [] => { sessions := [], events := [], ret := false }
  | s :: rest =>
    if s.hasPagingCb then
      { sessions := { s with protectOOM := false, forceEvicted := true } :: rest
      , events := [PagingEvent.forceEvictCall s.sessHandle]
      , ret := true }
    else
      let r := forceEvictPhase rest
      { sessions := s :: r.sessions, events := r.events, ret := r.ret }

/-- Result of `doPaging`: its boolean return value, the calls made into
session paging callbacks in order, and the candidate sessions with any
flag updates from force-eviction. -/
structure PagingResult where
  ret : Bool
  events : List PagingEvent
  sessions : List SessionItem
deriving DecidableEq

/-- Embedding of `ExecutionEngine::doPaging(spec, target)`: sort candidates by
descending usage on the source device; for a single (or no) session
return false; otherwise run the volunteer phase over `candidates[1..]`
and, if it falls through, force-evict the first candidate with a paging
callback. -/
def doPaging (env : PagingEnv) (sessions : List SessionItem) : PagingResult :=
  let candidates := sortByUsageDesc sessions
  match candidates with
  | [] => { ret := false, events := [], sessions := [] }
  | [c] => { ret := false, events := [], sessions := [c] }
  | c0 :: rest =>
    let vp := volunteerPhase env rest
    match vp.2 with
    | some b => { ret := b, events := vp.1, sessions := c0 :: rest }
    | none =>
      let fe := forceEvictPhase (c0 :: rest)
      { ret := fe.ret, events := vp.1 ++ fe.events, sessions := fe.sessions }

/-- Number of `forceEvictCall` events in a trace. -/
def countForceEvicts (evs : List PagingEvent) : Nat :=
  evs.countP fun e => match e with
    | PagingEvent.forceEvictCall _ => true
    | _ => false

/-!
Scheduler loop (`ExecutionEngine::scheduleLoop`), split into the
per-session preparation phase and the paging/backoff tail of one
iteration.
-/

/-- Preparation of one session in a scheduler iteration
(`scheduleLoop`, "Prepare session ready for this iter of schedule"):
splice the front `queue` into `bgQueue`; if the session is
`forceEvicted`, cancel every operation in `bgQueue` and clear it;
set `protectOOM` to the iteration-wide flag and reset `lastScheduled`.
The second component lists the operation ids whose `cancel()` was
invoked, one entry per call, in order. -/
def prepareSession (enableOOMProtect : Bool) (s : SessionItem) :
    SessionItem × List Nat :=
  let bg := s.bgQueue ++ s.queue
  if s.forceEvicted then
    ({ s with
       queue := []
       bgQueue := []
       protectOOM := enableOOMProtect
       lastScheduled := 0 }, bg)
  else
    ({ s with
       queue := []
       bgQueue := bg
       protectOOM := enableOOMProtect
       lastScheduled := 0 }, [])

/-- Preparation phase over all live sessions: the iteration-wide flag is
`enableOOMProtect = m_sessions.size() > 1` and every live session is
prepared with it. -/
def prepareSessions (sessions : List SessionItem) :
    List (SessionItem × List Nat) :=
  sessions.map (prepareSession (decide (1 < sessions.length)))

/-- What the tail of one scheduler-loop iteration decides to do. -/
structure IterDecision where
  pagingInvoked : Bool
  doPagingCalled : Bool
  didPaging : Bool
  skippedToNextIter : Bool
  ranBackoff : Bool
  waitedOnNote : Bool
deriving DecidableEq

/-- Tail of one `scheduleLoop` iteration ("Update conditions and check
if we need paging"): `noProgress = remainingCount > 0 && scheduled == 0
&& m_noPagingRunningTasks == 0`; paging is invoked when additionally the
policy reports insufficient memory on GPU0; `doPaging(GPU0, CPU0)` is
called only with more than one live session (with exactly one, only an
OOM log happens); on `didPaging` the iteration `continue`s, skipping
`maybeWaitForAWhile` and the wait on `m_note_has_work`; the wait happens
only when `totalRemainingCount == 0`. `pagingRet` is what `doPaging`
would return if called. -/
def scheduleLoopTail (remainingCount scheduled noPagingRunningTasks : Nat)
    (insufficientMemory : Bool) (numSessions : Nat) (pagingRet : Bool)
    (totalRemainingCount : Nat) : IterDecision :=
  let noProgress :=
    decide (0 < remainingCount) && decide (scheduled = 0)
      && decide (noPagingRunningTasks = 0)
  let pagingInvoked := noProgress && insufficientMemory
  let doPagingCalled := pagingInvoked && decide (1 < numSessions)
  let didPaging := doPagingCalled && pagingRet
  if didPaging then
    { pagingInvoked := pagingInvoked, doPagingCalled := doPagingCalled
    , didPaging := didPaging, skippedToNextIter := true
    , ranBackoff := false, waitedOnNote := false }
  else
    { pagingInvoked := pagingInvoked, doPagingCalled := doPagingCalled
    , didPaging := didPaging, skippedToNextIter := false
    , ranBackoff := true
    , waitedOnNote := decide (totalRemainingCount = 0) }

/-!
Ticket accounting: `ResourceMonitor` (abstracted to per-ticket staging
and committed totals) and `ResourceContext::releaseStaging`.
-/

/-- Per-ticket view of the `ResourceMonitor`: total staged and total
committed quantity held by each ticket. -/
structure Monitor where
  staging : Nat → Nat
  committed : Nat → Nat

/-- Embedding of `ResourceMonitor::freeStaging(ticket)`: release all remaining
staging of the ticket. -/
def freeStaging (m : Monitor) (t : Nat) : Monitor :=
  { m with staging := fun x => if x = t then 0 else m.staging x }

/-- Embedding of `ResourceMonitor::hasUsage(ticket)`: the ticket still holds staged
or committed quantities. -/
def hasUsage (m : Monitor) (t : Nat) : Bool :=
  decide (m.staging t ≠ 0) || decide (m.committed t ≠ 0)

/-- State touched by `ResourceContext::releaseStaging`: the monitor, the
owning session's ticket list, and the context's `m_ticket` and
`hasStaging` fields. -/
structure RCState where
  mon : Monitor
  sessTickets : List Nat
  ticket : Nat
  hasStaging : Bool

/-- Embedding of `ResourceContext::releaseStaging()`, also run by the destructor:
a no-op without staging; otherwise free the staging, clear `hasStaging`,
and when the monitor reports no remaining usage for the ticket remove it
from the session (`removeMemoryAllocationTicket`, modelled as erasing it
from the ticket list). -/
def releaseStaging (st : RCState) : RCState :=
  if st.hasStaging then
    let m := freeStaging st.mon st.ticket
    if hasUsage m st.ticket then
      { st with mon := m, hasStaging := false }
    else
      { st with
        mon := m
        hasStaging := false
        sessTickets := st.sessTickets.erase st.ticket }
  else st

/-!
Task lifecycle: `taskStopped`, the `memFailure` callback built in
`submitTask`, and `submitTask` itself.
-/

/-- Ambient facts of a task-lifecycle call: whether `VLOG_IS_ON(2)`
holds, whether the operation's weak session reference still lifts, and
the operation's `isAsync()` flag. -/
structure TaskCtx where
  vlogOn : Bool
  sessAlive : Bool
  isAsync : Bool

/-- Engine counters `m_runningTasks` and `m_noPagingRunningTasks`. -/
structure EngineState where
  runningTasks : Int
  noPagingRunningTasks : Int
deriving DecidableEq

/-- Result of `taskStopped`: the resource-context state after releasing
staging, the engine counters, and the session's `totalExecutedOp`. -/
structure StopResult where
  rc : RCState
  es : EngineState
  totalExecutedOp : Nat

/-- Embedding of `ExecutionEngine::taskStopped(opItem, failed)`: release the
operation's staging; when not failed, and only under `VLOG_IS_ON(2)`
with the session still alive, increment the session's
`totalExecutedOp`; decrement `m_runningTasks`, and for a synchronous
operation also `m_noPagingRunningTasks`. -/
def taskStopped (ctx : TaskCtx) (failed : Bool) (rc : RCState)
    (es : EngineState) (totalExecutedOp : Nat) : StopResult :=
  let rc2 := releaseStaging rc
  let total2 :=
    if failed then totalExecutedOp
    else if ctx.vlogOn then
      if ctx.sessAlive then totalExecutedOp + 1 else totalExecutedOp
    else totalExecutedOp
  { rc := rc2
  , es := { runningTasks := es.runningTasks - 1
          , noPagingRunningTasks :=
              if ctx.isAsync then es.noPagingRunningTasks
              else es.noPagingRunningTasks - 1 }
  , totalExecutedOp := total2 }

/-- Embedding of `ExecutionEngine::taskRunning(opItem)`: increment `m_runningTasks`,
and for a synchronous operation also `m_noPagingRunningTasks`. -/
def taskRunning (isAsync : Bool) (es : EngineState) : EngineState :=
  { runningTasks := es.runningTasks + 1
  , noPagingRunningTasks :=
      if isAsync then es.noPagingRunningTasks
      else es.noPagingRunningTasks + 1 }

/-- Result of the `memFailure` callback: its boolean return value and
the state it may have changed (resource context, engine counters,
`totalExecutedOp`, and the session's front queue, to whose back a
requeued operation is pushed). -/
structure MemFailResult where
  ret : Bool
  rc : RCState
  es : EngineState
  totalExecutedOp : Nat
  queue : List Nat

/-- The `cbs.memFailure` closure built in `submitTask`: if the weak
session reference is expired, return false and change nothing; if the
session's `protectOOM` is unset, return false and change nothing;
otherwise `taskStopped(op, failed=true)` and push the operation back to
the session's front queue (`pushToSessionQueue`), returning true. -/
def memFailure (ctx : TaskCtx) (opId : Nat) (protectOOM : Bool)
    (rc : RCState) (es : EngineState) (totalExecutedOp : Nat)
    (sessQueue : List Nat) : MemFailResult :=
  if !ctx.sessAlive then
    { ret := false, rc := rc, es := es
    , totalExecutedOp := totalExecutedOp, queue := sessQueue }
  else if !protectOOM then
    { ret := false, rc := rc, es := es
    , totalExecutedOp := totalExecutedOp, queue := sessQueue }
  else
    let r := taskStopped ctx true rc es totalExecutedOp
    { ret := true, rc := r.rc, es := r.es
    , totalExecutedOp := r.totalExecutedOp
    , queue := sessQueue ++ [opId] }

/-- Result of `submitTask`: the `POpItem` it returns (`none` models the
null pointer) and whether the closure was handed to the worker pool. -/
structure SubmitResult where
  returnedOp : Option Nat
  handedToPool : Bool
deriving DecidableEq

/-- Embedding of `ThreadPool::tryRun(closure)`: returns the closure back when the
pool is full, otherwise accepts it and returns nothing. -/
def tryRun (poolFull : Bool) (c : Nat) : Option Nat :=
  if poolFull then some c else none

/-- Embedding of `ExecutionEngine::submitTask(opItem)`: an expired weak session
reference drops the operation and returns null; an operation whose
resource context is not good is returned unscheduled; then
`m_pool.tryRun` either keeps the closure (pool full, the operation is
returned) or accepts it (the local `opItem` is reset and null is
returned). -/
def submitTask (sessAlive rctxGood poolFull : Bool) (opId : Nat) :
    SubmitResult :=
  if !sessAlive then { returnedOp := none, handedToPool := false }
  else if !rctxGood then { returnedOp := some opId, handedToPool := false }
  else
    match tryRun poolFull opId with
    | some c => { returnedOp := some c, handedToPool := false }
    | none => { returnedOp := none, handedToPool := true }

/-- A live session with empty queues and given handle, tickets, paging
callback and source-device usage; used for concrete scenarios. -/
def mkSession (h : String) (ts : List Nat) (cb : Bool) (u : Nat) :
    SessionItem where
  sessHandle := h
  queue := []
  bgQueue := []
  tickets := ts
  hasPagingCb := cb
  protectOOM := true
  forceEvicted := false
  lastScheduled := 0
  totalExecutedOp := 0
  usage := u

/-!
Helper lemmas about the phases of `doPaging`.
-/

theorem volunteerVictims_events_handle (env : PagingEnv) (sess : SessionItem)
    (vl : List (Nat × Nat)) :
    ∀ e ∈ (volunteerVictims env sess vl).1,
      ∃ t, e = PagingEvent.volunteerCall sess.sessHandle t := by
  induction vl with
  | nil => intro e he; simp [volunteerVictims] at he
  | cons p rest ih =>
    intro e he
    obtain ⟨u, v⟩ := p
    simp only [volunteerVictims] at he
    split at he
    · split at he
      · simp at he
        exact ⟨v, he⟩
      · simp at he
        rcases he with he | he
        · exact ⟨v, he⟩
        · exact ih e he
    · simp at he

theorem volunteerPhase_events_handle (env : PagingEnv)
    (l : List SessionItem) :
    ∀ e ∈ (volunteerPhase env l).1,
      ∃ s, s ∈ l ∧ ∃ t, e = PagingEvent.volunteerCall s.sessHandle t := by
  induction l with
  | nil => intro e he; simp [volunteerPhase] at he
  | cons sess rest ih =>
    intro e he
    simp only [volunteerPhase] at he
    split at he
    · simp at he
    · split at he
      · obtain ⟨s, hs, ht⟩ := ih e he
        exact ⟨s, List.mem_cons_of_mem _ hs, ht⟩
      · split at he
        · simp only [] at he
          obtain ⟨t, rfl⟩ := volunteerVictims_events_handle env sess _ e he
          exact ⟨sess, List.mem_cons_self _ _, t, rfl⟩
        · simp only [] at he
          rcases List.mem_append.mp he with he | he
          · obtain ⟨t, rfl⟩ := volunteerVictims_events_handle env sess _ e he
            exact ⟨sess, List.mem_cons_self _ _, t, rfl⟩
          · obtain ⟨s, hs, ht⟩ := ih e he
            exact ⟨s, List.mem_cons_of_mem _ hs, ht⟩

theorem forceEvictPhase_events_shape (l : List SessionItem) :
    ∀ e ∈ (forceEvictPhase l).events,
      ∃ h, e = PagingEvent.forceEvictCall h := by
  induction l with
  | nil => intro e he; simp [forceEvictPhase] at he
  | cons s rest ih =>
    intro e he
    simp only [forceEvictPhase] at he
    split at he
    · simp at he
      exact ⟨s.sessHandle, he⟩
    · simp only [] at he
      exact ih e he

theorem countForceEvicts_append (l1 l2 : List PagingEvent) :
    countForceEvicts (l1 ++ l2) = countForceEvicts l1 + countForceEvicts l2 := by
  simp [countForceEvicts, List.countP_append]

theorem countForceEvicts_of_volunteer (evs : List PagingEvent)
    (h : ∀ e ∈ evs, ∃ s t, e = PagingEvent.volunteerCall s t) :
    countForceEvicts evs = 0 := by
  unfold countForceEvicts
  rw [List.countP_eq_zero]
  intro e he
  obtain ⟨s, t, rfl⟩ := h e he
  simp

theorem countForceEvicts_volunteerPhase (env : PagingEnv)
    (l : List SessionItem) :
    countForceEvicts (volunteerPhase env l).1 = 0 := by
  refine countForceEvicts_of_volunteer _ (fun e he => ?_)
  obtain ⟨s, _, t, rfl⟩ := volunteerPhase_events_handle env l e he
  exact ⟨s.sessHandle, t, rfl⟩

theorem countForceEvicts_forceEvictPhase (l : List SessionItem) :
    countForceEvicts (forceEvictPhase l).events ≤ 1 := by
  induction l with
  | nil => simp [forceEvictPhase, countForceEvicts]
  | cons s rest ih =>
    simp only [forceEvictPhase]
    split
    · simp [countForceEvicts]
    · simpa using ih

theorem insertDesc_length (s : SessionItem) (l : List SessionItem) :
    (insertDesc s l).length = l.length + 1 := by
  induction l with
  | nil => rfl
  | cons t ts ih =>
    simp only [insertDesc]
    split <;> simp [ih]

theorem sortByUsageDesc_length (l : List SessionItem) :
    (sortByUsageDesc l).length = l.length := by
  induction l with
  | nil => rfl
  | cons s ss ih => simp [sortByUsageDesc, insertDesc_length, ih]

theorem doPaging_events_eq (env : PagingEnv) (sessions : List SessionItem)
    (c0 a : SessionItem) (rest : List SessionItem)
    (hs : sortByUsageDesc sessions = c0 :: a :: rest) :
    (doPaging env sessions).events =
      (volunteerPhase env (a :: rest)).1 ++
        (match (volunteerPhase env (a :: rest)).2 with
         | some _ => []
         | none => (forceEvictPhase (c0 :: a :: rest)).events) := by
  simp only [doPaging, hs]
  rcases h2 : (volunteerPhase env (a :: rest)).2 with _ | b <;> simp [h2]

theorem doPaging_none_eq (env : PagingEnv) (sessions : List SessionItem)
    (c0 a : SessionItem) (rest : List SessionItem)
    (hs : sortByUsageDesc sessions = c0 :: a :: rest)
    (h2 : (volunteerPhase env (a :: rest)).2 = none) :
    doPaging env sessions =
      { ret := (forceEvictPhase (c0 :: a :: rest)).ret
      , events := (volunteerPhase env (a :: rest)).1
                    ++ (forceEvictPhase (c0 :: a :: rest)).events
      , sessions := (forceEvictPhase (c0 :: a :: rest)).sessions } := by
  simp only [doPaging, hs, h2]

theorem volunteerPhase_stops_after_empty (env : PagingEnv) :
    ∀ (pre : List SessionItem) (s x : SessionItem) (post : List SessionItem)
      (t : Nat),
      s.tickets = [] → x ∈ post →
      ((pre ++ s :: post).map SessionItem.sessHandle).Nodup →
      PagingEvent.volunteerCall x.sessHandle t
        ∉ (volunteerPhase env (pre ++ s :: post)).1 := by
  intro pre
  induction pre with
  | nil =>
    intro s x post t ht hx hnd
    simp [volunteerPhase, ht]
  | cons a pre ih =>
    intro s x post t ht hx hnd
    have hnd2 : ((pre ++ s :: post).map SessionItem.sessHandle).Nodup := by
      simpa using (List.nodup_cons.mp (by simpa using hnd)).2
    have hxh : x.sessHandle ≠ a.sessHandle := by
      have hmem : x.sessHandle ∈ (pre ++ s :: post).map SessionItem.sessHandle := by
        simp only [List.mem_map]
        exact ⟨x, by simp [hx], rfl⟩
      have hnotin : a.sessHandle ∉ (pre ++ s :: post).map SessionItem.sessHandle :=
        (List.nodup_cons.mp (by simpa using hnd)).1
      intro h
      exact hnotin (h ▸ hmem)
    simp only [List.cons_append, volunteerPhase]
    split
    · simp
    · split
      · exact ih s x post t ht hx hnd2
      · rcases h2 : (volunteerVictims env a
            (env.sortVictim a.tickets)).2 with _ | b
        · simp only [h2]
          intro hmem
          rcases List.mem_append.mp hmem with hmem | hmem
          · obtain ⟨t2, he⟩ := volunteerVictims_events_handle env a _ _ hmem
            exact hxh (by injection he)
          · exact ih s x post t ht hx hnd2 hmem
        · simp only [h2]
          intro hmem
          obtain ⟨t2, he⟩ := volunteerVictims_events_handle env a _ _ hmem
          exact hxh (by injection he)

theorem doPaging_volunteer_mem (env : PagingEnv) (sessions : List SessionItem)
    (c0 a : SessionItem) (rest : List SessionItem) (x : String) (t : Nat)
    (hs : sortByUsageDesc sessions = c0 :: a :: rest)
    (hmem : PagingEvent.volunteerCall x t ∈ (doPaging env sessions).events) :
    PagingEvent.volunteerCall x t ∈ (volunteerPhase env (a :: rest)).1 := by
  rw [doPaging_events_eq env sessions c0 a rest hs] at hmem
  rcases List.mem_append.mp hmem with h | h
  · exact h
  · exfalso
    rcases h2 : (volunteerPhase env (a :: rest)).2 with _ | b
    · rw [h2] at h
      obtain ⟨hh, he⟩ := forceEvictPhase_events_shape _ _ h
      exact PagingEvent.noConfusion he
    · rw [h2] at h
      simp at h

/-- Paging environment for concrete scenarios: every ticket yields one
victim of usage 7, CPU pre-allocation always succeeds, and only session
"C" ever volunteers memory (100 bytes). -/
def c1Env : PagingEnv where
  sortVictim := fun ts => ts.map fun t => (7, t)
  rctxGood := fun _ _ => true
  volunteerRet := fun h _ => if h = "C" then 100 else 0

/-- Largest consumer: 10 bytes used, owns ticket 1, has a callback. -/
def c1SessA : SessionItem := mkSession "A" [1] true 10

/-- Middle consumer: 5 bytes used, owns no tickets, has a callback. -/
def c1SessB : SessionItem := mkSession "B" [] true 5

/-- Smallest consumer: 3 bytes used, owns ticket 2, has a callback and
would volunteer 100 bytes if asked. -/
def c1SessC : SessionItem := mkSession "C" [2] true 3

/-- The live session list for the concrete paging scenario. -/
def c1Sessions : List SessionItem := [c1SessC, c1SessA, c1SessB]

/-- C1, counterexample: candidates sort to [A, B, C]; the visited
session B has an empty ticket set while the later candidate C has a
ticket, a paging callback, a good CPU pre-allocation and a positive
volunteer answer; yet `doPaging`'s only callback invocation is the
force-eviction of A — C is never asked to volunteer, so the loop did
not move on to the next remaining candidate as the claim states. -/
theorem doPaging_empty_tickets_claim_false :
    sortByUsageDesc c1Sessions = [c1SessA, c1SessB, c1SessC]
  ∧ c1SessB.tickets = []
  ∧ c1SessC.tickets = [2]
  ∧ c1SessC.hasPagingCb = true
  ∧ c1Env.rctxGood c1SessC.sessHandle 2 = true
  ∧ 0 < c1Env.volunteerRet c1SessC.sessHandle 2
  ∧ (doPaging c1Env c1Sessions).events = [PagingEvent.forceEvictCall "A"] := by
  decide

/-- C1, amended: in `doPaging`'s volunteer phase, when the loop reaches
a session with an empty ticket set it breaks out of the volunteer phase
entirely ("no need to go beyond"): no candidate placed after the
empty-ticket session is asked to volunteer during that call. -/
theorem doPaging_empty_tickets_breaks (env : PagingEnv)
    (sessions : List SessionItem) (c0 s x : SessionItem)
    (pre post : List SessionItem) (t : Nat)
    (hs : sortByUsageDesc sessions = c0 :: (pre ++ s :: post))
    (hnd : ((sortByUsageDesc sessions).map SessionItem.sessHandle).Nodup)
    (ht : s.tickets = []) (hx : x ∈ post) :
    PagingEvent.volunteerCall x.sessHandle t
      ∉ (doPaging env sessions).events := by
  intro hmem
  rw [hs, List.map_cons] at hnd
  have hndt : ((pre ++ s :: post).map SessionItem.sessHandle).Nodup :=
    (List.nodup_cons.mp hnd).2
  rcases pre with _ | ⟨a, pre⟩
  · have h1 := doPaging_volunteer_mem env sessions c0 s post
      x.sessHandle t (by simpa using hs) hmem
    have h2 := volunteerPhase_stops_after_empty env [] s x post t ht hx hndt
    exact h2 (by simpa using h1)
  · have h1 := doPaging_volunteer_mem env sessions c0 a (pre ++ s :: post)
      x.sessHandle t (by simpa using hs) hmem
    have h2 := volunteerPhase_stops_after_empty env (a :: pre) s x post t ht hx
      hndt
    exact h2 (by simpa using h1)

/-- C1, witness for the amended theorem: in the concrete scenario,
session C (placed after the empty-ticket session B) is never asked to
page out its ticket 2. -/
theorem doPaging_empty_tickets_breaks_witness :
    PagingEvent.volunteerCall "C" 2 ∉ (doPaging c1Env c1Sessions).events :=
  doPaging_empty_tickets_breaks c1Env c1Sessions c1SessA c1SessB c1SessC
    [] [c1SessC] 2 (by decide) (by decide) (by decide) (by decide)

/-- C3: with at least two live sessions, the session with the greatest
memory usage on the source device — the first element of the candidate
list sorted in descending usage order — is never asked to volunteer:
no `volunteer` invocation during the `doPaging` call targets it. -/
theorem doPaging_largest_not_asked (env : PagingEnv)
    (sessions : List SessionItem) (c0 : SessionItem)
    (rest : List SessionItem) (t : Nat)
    (hlen : 2 ≤ sessions.length)
    (hnd : ((sortByUsageDesc sessions).map SessionItem.sessHandle).Nodup)
    (hs : sortByUsageDesc sessions = c0 :: rest) :
    PagingEvent.volunteerCall c0.sessHandle t
      ∉ (doPaging env sessions).events := by
  rcases rest with _ | ⟨a, rest⟩
  · exfalso
    have hl := sortByUsageDesc_length sessions
    rw [hs] at hl
    simp at hl
    omega
  · intro hmem
    have h1 := doPaging_volunteer_mem env sessions c0 a rest
      c0.sessHandle t hs hmem
    obtain ⟨s, hsmem, t2, he⟩ := volunteerPhase_events_handle env (a :: rest) _ h1
    have heq : c0.sessHandle = s.sessHandle := by injection he
    rw [hs, List.map_cons] at hnd
    have hni := (List.nodup_cons.mp hnd).1
    exact hni (heq ▸ List.mem_map_of_mem SessionItem.sessHandle hsmem)

/-- C3, witness: in the concrete scenario the largest consumer A is
never asked to volunteer its ticket 1. -/
theorem doPaging_largest_not_asked_witness :
    PagingEvent.volunteerCall "A" 1 ∉ (doPaging c1Env c1Sessions).events :=
  doPaging_largest_not_asked c1Env c1Sessions c1SessA [c1SessB, c1SessC] 1
    (by decide) (by decide) (by decide)

theorem forceEvictPhase_no_cb (l : List SessionItem)
    (h : ∀ s ∈ l, s.hasPagingCb = false) :
    forceEvictPhase l = { sessions := l, events := [], ret := false } := by
  induction l with
  | nil => rfl
  | cons s rest ih =>
    have hs := h s (List.mem_cons_self s rest)
    have ih2 := ih fun x hx => h x (List.mem_cons_of_mem s hx)
    simp [forceEvictPhase, hs, ih2]

theorem forceEvictPhase_find (l : List SessionItem) (s : SessionItem)
    (h : l.find? (fun x => x.hasPagingCb) = some s) :
    (forceEvictPhase l).ret = true
  ∧ (forceEvictPhase l).events = [PagingEvent.forceEvictCall s.sessHandle]
  ∧ { s with protectOOM := false, forceEvicted := true }
      ∈ (forceEvictPhase l).sessions := by
  induction l with
  | nil => simp at h
  | cons a rest ih =>
    by_cases ha : a.hasPagingCb = true
    · rw [List.find?_cons_of_pos _ ha] at h
      obtain rfl : a = s := by injection h
      simp [forceEvictPhase, ha]
    · rw [List.find?_cons_of_neg _ (by simpa using ha)] at h
      obtain ⟨h1, h2, h3⟩ := ih h
      simp only [forceEvictPhase]
      rw [if_neg ha]
      exact ⟨h1, h2, List.mem_cons_of_mem _ h3⟩

theorem volunteerVictims_all_good_zero (env : PagingEnv) (sess : SessionItem)
    (hg : ∀ h t, env.rctxGood h t = true)
    (hv : ∀ h t, env.volunteerRet h t = 0) (vl : List (Nat × Nat)) :
    volunteerVictims env sess vl
      = (vl.map fun p => PagingEvent.volunteerCall sess.sessHandle p.2, none) := by
  induction vl with
  | nil => rfl
  | cons p rest ih =>
    obtain ⟨u, v⟩ := p
    simp [volunteerVictims, hg, hv, ih]

theorem volunteerPhase_all_zero_none (env : PagingEnv)
    (hg : ∀ h t, env.rctxGood h t = true)
    (hv : ∀ h t, env.volunteerRet h t = 0) (l : List SessionItem) :
    (volunteerPhase env l).2 = none := by
  induction l with
  | nil => rfl
  | cons sess rest ih =>
    simp only [volunteerPhase]
    split
    · rfl
    · split
      · exact ih
      · rw [volunteerVictims_all_good_zero env sess hg hv]
        simpa using ih

theorem doPaging_forceEvicts_le_one (env : PagingEnv)
    (sessions : List SessionItem) :
    countForceEvicts (doPaging env sessions).events ≤ 1 := by
  rcases h : sortByUsageDesc sessions with _ | ⟨c0, _ | ⟨a, rest⟩⟩
  · simp [doPaging, h, countForceEvicts]
  · simp [doPaging, h, countForceEvicts]
  · rw [doPaging_events_eq env sessions c0 a rest h]
    rcases h2 : (volunteerPhase env (a :: rest)).2 with _ | b
    · simp only [h2, countForceEvicts_append,
        countForceEvicts_volunteerPhase]
      have := countForceEvicts_forceEvictPhase (c0 :: a :: rest)
      omega
    · simp only [h2, countForceEvicts_append,
        countForceEvicts_volunteerPhase]
      simp [countForceEvicts]

/-- C4: when no session volunteers any memory (every volunteer answer is
0 and every CPU-side pre-allocation succeeds, so the volunteer phase
falls through), the first session in candidates order that has a paging
callback is force-evicted: its `protectOOM` is cleared, its
`forceEvicted` flag set, its `forceEvicted()` callback invoked exactly
once, and `doPaging` returns true; if no session has a paging callback,
`doPaging` returns false; and in any call whatsoever at most one session
is force-evicted. -/
theorem doPaging_force_evict (env : PagingEnv) (sessions : List SessionItem)
    (hg : ∀ h t, env.rctxGood h t = true)
    (hv : ∀ h t, env.volunteerRet h t = 0)
    (hlen : 2 ≤ sessions.length) :
    ((∀ s ∈ sortByUsageDesc sessions, s.hasPagingCb = false) →
       (doPaging env sessions).ret = false
       ∧ countForceEvicts (doPaging env sessions).events = 0)
  ∧ (∀ s, (sortByUsageDesc sessions).find? (fun x => x.hasPagingCb) = some s →
       (doPaging env sessions).ret = true
       ∧ PagingEvent.forceEvictCall s.sessHandle ∈ (doPaging env sessions).events
       ∧ countForceEvicts (doPaging env sessions).events = 1
       ∧ { s with protectOOM := false, forceEvicted := true }
           ∈ (doPaging env sessions).sessions)
  ∧ (∀ env2 sessions2,
       countForceEvicts (doPaging env2 sessions2).events ≤ 1) := by
  rcases h : sortByUsageDesc sessions with _ | ⟨c0, _ | ⟨a, rest⟩⟩
  · exfalso
    have hl := sortByUsageDesc_length sessions
    rw [h] at hl
    simp at hl
    omega
  · exfalso
    have hl := sortByUsageDesc_length sessions
    rw [h] at hl
    simp at hl
    omega
  · have h2 : (volunteerPhase env (a :: rest)).2 = none :=
      volunteerPhase_all_zero_none env hg hv (a :: rest)
    have hdp := doPaging_none_eq env sessions c0 a rest h h2
    refine ⟨?_, ?_, fun env2 sessions2 =>
      doPaging_forceEvicts_le_one env2 sessions2⟩
    · intro hnone
      have hfe := forceEvictPhase_no_cb (c0 :: a :: rest) hnone
      rw [hdp, hfe]
      refine ⟨rfl, ?_⟩
      rw [countForceEvicts_append, countForceEvicts_volunteerPhase]
      rfl
    · intro s hfind
      obtain ⟨f1, f2, f3⟩ := forceEvictPhase_find (c0 :: a :: rest) s hfind
      rw [hdp]
      refine ⟨f1, ?_, ?_, f3⟩
      · rw [f2]
        exact List.mem_append_right _ (List.mem_singleton_self _)
      · rw [f2, countForceEvicts_append, countForceEvicts_volunteerPhase]
        simp [countForceEvicts]

/-- Paging environment where every CPU pre-allocation succeeds and no
session ever volunteers memory. -/
def c4Env : PagingEnv where
  sortVictim := fun ts => ts.map fun t => (7, t)
  rctxGood := fun _ _ => true
  volunteerRet := fun _ _ => 0

/-- Largest consumer without a paging callback. -/
def c4SessA : SessionItem := mkSession "A" [1] false 10

/-- Smaller consumer with a paging callback. -/
def c4SessB : SessionItem := mkSession "B" [3] true 5

/-- Live sessions for the force-evict scenario. -/
def c4Sessions : List SessionItem := [c4SessB, c4SessA]

/-- C4, witness: candidates sort to [A, B]; A has no callback, so B is
the first candidate with one, nobody volunteers, and `doPaging` returns
true (force-evicting B). -/
theorem doPaging_force_evict_witness :
    (doPaging c4Env c4Sessions).ret = true :=
  ((doPaging_force_evict c4Env c4Sessions (fun _ _ => rfl) (fun _ _ => rfl)
      (by decide)).2.1 c4SessB (by decide)).1

theorem scheduleLoopTail_pagingInvoked
    (rc sc np : Nat) (im : Bool) (ns : Nat) (pr : Bool) (trc : Nat) :
    (scheduleLoopTail rc sc np im ns pr trc).pagingInvoked =
      (decide (0 < rc) && decide (sc = 0) && decide (np = 0) && im) := by
  simp [scheduleLoopTail, apply_ite IterDecision.pagingInvoked]

theorem scheduleLoopTail_doPagingCalled
    (rc sc np : Nat) (im : Bool) (ns : Nat) (pr : Bool) (trc : Nat) :
    (scheduleLoopTail rc sc np im ns pr trc).doPagingCalled =
      (decide (0 < rc) && decide (sc = 0) && decide (np = 0) && im
        && decide (1 < ns)) := by
  simp [scheduleLoopTail, apply_ite IterDecision.doPagingCalled]

theorem scheduleLoopTail_skipped
    (rc sc np : Nat) (im : Bool) (ns : Nat) (pr : Bool) (trc : Nat) :
    (scheduleLoopTail rc sc np im ns pr trc).skippedToNextIter =
      ((scheduleLoopTail rc sc np im ns pr trc).doPagingCalled && pr) := by
  simp only [scheduleLoopTail]
  split <;> simp_all

theorem scheduleLoopTail_ranBackoff
    (rc sc np : Nat) (im : Bool) (ns : Nat) (pr : Bool) (trc : Nat) :
    (scheduleLoopTail rc sc np im ns pr trc).ranBackoff =
      !(scheduleLoopTail rc sc np im ns pr trc).skippedToNextIter := by
  simp only [scheduleLoopTail]
  split <;> rfl

theorem scheduleLoopTail_waitedOnNote
    (rc sc np : Nat) (im : Bool) (ns : Nat) (pr : Bool) (trc : Nat) :
    (scheduleLoopTail rc sc np im ns pr trc).waitedOnNote =
      (!(scheduleLoopTail rc sc np im ns pr trc).skippedToNextIter
        && decide (trc = 0)) := by
  simp only [scheduleLoopTail]
  split <;> simp

/-- C5: in a scheduler-loop iteration, paging is invoked iff
`remainingCount > 0`, `scheduled == 0`, `noPagingRunningTasks == 0` and
the policy reports insufficient memory on GPU0; when these hold and at
least two sessions are live, `doPaging(GPU0, CPU0)` is called; with
exactly one live session no `doPaging` call happens (only logging); and
whenever the `doPaging` call returns true, the loop restarts
immediately, skipping both the backoff sleep and the wait on the work
notification. -/
theorem scheduleLoop_paging_condition
    (rc sc np : Nat) (im : Bool) (ns : Nat) (pr : Bool) (trc : Nat) :
    ((scheduleLoopTail rc sc np im ns pr trc).pagingInvoked = true
      ↔ 0 < rc ∧ sc = 0 ∧ np = 0 ∧ im = true)
  ∧ ((scheduleLoopTail rc sc np im ns pr trc).pagingInvoked = true →
      2 ≤ ns →
      (scheduleLoopTail rc sc np im ns pr trc).doPagingCalled = true)
  ∧ (ns = 1 →
      (scheduleLoopTail rc sc np im ns pr trc).doPagingCalled = false)
  ∧ ((scheduleLoopTail rc sc np im ns pr trc).doPagingCalled = true →
      pr = true →
      (scheduleLoopTail rc sc np im ns pr trc).skippedToNextIter = true
      ∧ (scheduleLoopTail rc sc np im ns pr trc).ranBackoff = false
      ∧ (scheduleLoopTail rc sc np im ns pr trc).waitedOnNote = false) := by
  refine ⟨?_, ?_, ?_, ?_⟩
  · rw [scheduleLoopTail_pagingInvoked]
    simp [and_assoc]
  · intro h1 h2
    rw [scheduleLoopTail_pagingInvoked] at h1
    rw [scheduleLoopTail_doPagingCalled]
    simp only [Bool.and_eq_true] at h1 ⊢
    exact ⟨h1, by simpa using h2⟩
  · intro h
    rw [scheduleLoopTail_doPagingCalled, h]
    simp
  · intro h1 h2
    have hs : (scheduleLoopTail rc sc np im ns pr trc).skippedToNextIter
        = true := by
      rw [scheduleLoopTail_skipped, h1, h2]
      rfl
    refine ⟨hs, ?_, ?_⟩
    · rw [scheduleLoopTail_ranBackoff, hs]
      rfl
    · rw [scheduleLoopTail_waitedOnNote, hs]
      rfl

/-- C5, witness: with one remaining op, nothing scheduled, no
paging-blocking running tasks, insufficient GPU memory, two live
sessions and a successful paging call, paging is invoked and the
iteration restarts immediately without backoff or wait. -/
theorem scheduleLoop_paging_condition_witness :
    (scheduleLoopTail 1 0 0 true 2 true 1).pagingInvoked = true
  ∧ (scheduleLoopTail 1 0 0 true 2 true 1).doPagingCalled = true
  ∧ (scheduleLoopTail 1 0 0 true 2 true 1).skippedToNextIter = true
  ∧ (scheduleLoopTail 1 0 0 true 2 true 1).ranBackoff = false
  ∧ (scheduleLoopTail 1 0 0 true 2 true 1).waitedOnNote = false := by
  have h := scheduleLoop_paging_condition 1 0 0 true 2 true 1
  have hdp := h.2.1 (by decide) (by decide)
  obtain ⟨hs, hb, hw⟩ := h.2.2.2 hdp rfl
  exact ⟨by decide, hdp, hs, hb, hw⟩

/-- C8: for a session whose `forceEvicted` flag is set, the preparation
step of the next scheduler iteration invokes `cancel()` exactly once on
every operation then in its `bgQueue` — including the operations just
spliced in from the front queue — and leaves `bgQueue` empty, so the
policy can no longer dispatch any of them. -/
theorem forceEvicted_cancels_bgQueue (enable : Bool) (s : SessionItem)
    (h : s.forceEvicted = true) (hnd : (s.bgQueue ++ s.queue).Nodup) :
    (prepareSession enable s).1.bgQueue = []
  ∧ (prepareSession enable s).2 = s.bgQueue ++ s.queue
  ∧ ∀ op ∈ s.bgQueue ++ s.queue,
      (prepareSession enable s).2.count op = 1 := by
  have h2 : (prepareSession enable s).2 = s.bgQueue ++ s.queue := by
    simp [prepareSession, h]
  refine ⟨by simp [prepareSession, h], h2, ?_⟩
  intro op hop
  rw [h2]
  exact List.count_eq_one_of_mem hnd hop

/-- A force-evicted session with two ops pending in `bgQueue` and one
freshly enqueued in the front queue. -/
def c8Sess : SessionItem :=
  { mkSession "E" [] true 0 with
    forceEvicted := true
    bgQueue := [1, 2]
    queue := [3] }

/-- C8, witness: preparing the force-evicted session cancels ops 1, 2, 3
exactly once each and empties its `bgQueue`. -/
theorem forceEvicted_cancels_bgQueue_witness :
    (prepareSession true c8Sess).1.bgQueue = []
  ∧ (prepareSession true c8Sess).2 = [1, 2, 3]
  ∧ (prepareSession true c8Sess).2.count 1 = 1 := by
  have h := forceEvicted_cancels_bgQueue true c8Sess (by decide) (by decide)
  exact ⟨h.1, by rw [h.2.1]; rfl, h.2.2 1 (by decide)⟩

/-- C9: the preparation phase of every scheduler iteration assigns
`protectOOM = (number of live sessions > 1)` to every live session,
force-evicted sessions included; consequently the `protectOOM = false`
written by `doPaging`'s force-evict path is overwritten at the start of
the next iteration whenever more than one session remains live. -/
theorem protectOOM_reassigned (sessions : List SessionItem) :
    (∀ p ∈ prepareSessions sessions,
       p.1.protectOOM = decide (1 < sessions.length))
  ∧ (∀ s ∈ sessions, s.forceEvicted = true → 1 < sessions.length →
       (prepareSession (decide (1 < sessions.length)) s).1.protectOOM
         = true) := by
  constructor
  · intro p hp
    obtain ⟨s, hs, rfl⟩ := List.mem_map.mp hp
    by_cases hf : s.forceEvicted = true <;> simp [prepareSession, hf]
  · intro s hs hf hlen
    simp [prepareSession, hf, hlen]

/-- A session left by a force-evict: `forceEvicted` set, `protectOOM`
cleared. -/
def c9Sess : SessionItem :=
  { mkSession "E" [] true 0 with
    forceEvicted := true
    protectOOM := false }

/-- C9, witness: with two live sessions, the next iteration's
preparation turns the evicted session's `protectOOM` back on. -/
theorem protectOOM_reassigned_witness :
    (prepareSession
      (decide (1 < ([c9Sess, mkSession "F" [] false 1] :
        List SessionItem).length)) c9Sess).1.protectOOM = true :=
  (protectOOM_reassigned [c9Sess, mkSession "F" [] false 1]).2 c9Sess
    (by decide) (by decide) (by decide)

theorem releaseStaging_of_no_staging (st : RCState)
    (h : st.hasStaging = false) : releaseStaging st = st := by
  simp [releaseStaging, h]

theorem releaseStaging_hasStaging (st : RCState) :
    (releaseStaging st).hasStaging = false := by
  by_cases h : st.hasStaging = true
  · simp [releaseStaging, h, apply_ite RCState.hasStaging]
  · have h2 : st.hasStaging = false := by simpa using h
    simp [releaseStaging, h2]

/-- C10: `releaseStaging` is idempotent — after one call `hasStaging`
is false and any further call (including the destructor's) changes
nothing — and the session's ticket is removed exactly on the release
where the monitor reports the ticket has no remaining usage after its
staging is freed. -/
theorem releaseStaging_idempotent (st : RCState) :
    (releaseStaging st).hasStaging = false
  ∧ releaseStaging (releaseStaging st) = releaseStaging st
  ∧ (st.hasStaging = true →
      hasUsage (freeStaging st.mon st.ticket) st.ticket = false →
      (releaseStaging st).sessTickets = st.sessTickets.erase st.ticket)
  ∧ (st.hasStaging = true →
      hasUsage (freeStaging st.mon st.ticket) st.ticket = true →
      (releaseStaging st).sessTickets = st.sessTickets)
  ∧ (st.hasStaging = false → releaseStaging st = st) := by
  refine ⟨releaseStaging_hasStaging st,
    releaseStaging_of_no_staging _ (releaseStaging_hasStaging st),
    ?_, ?_, releaseStaging_of_no_staging st⟩
  · intro h hu
    simp [releaseStaging, h, hu]
  · intro h hu
    simp [releaseStaging, h, hu]

/-- Monitor where ticket 4 holds 5 staged bytes and nothing is
committed. -/
def c10Mon : Monitor where
  staging := fun t => if t = 4 then 5 else 0
  committed := fun _ => 0

/-- A resource context holding staging for ticket 4 of a session owning
tickets 4 and 9. -/
def c10St : RCState where
  mon := c10Mon
  sessTickets := [4, 9]
  ticket := 4
  hasStaging := true

/-- C10, witness: releasing the staged ticket 4 (whose usage drops to
zero) removes it from the session's ticket list. -/
theorem releaseStaging_idempotent_witness :
    c10St.hasStaging = true
  ∧ (releaseStaging c10St).sessTickets
      = c10St.sessTickets.erase c10St.ticket :=
  ⟨rfl, (releaseStaging_idempotent c10St).2.2.1 rfl rfl⟩

/-- Lifecycle context with verbose logging off: `VLOG_IS_ON(2)` false,
session alive, synchronous op. -/
def c2Ctx : TaskCtx where
  vlogOn := false
  sessAlive := true
  isAsync := false

/-- A resource context with no staging and an empty monitor. -/
def c2Rc : RCState where
  mon := { staging := fun _ => 0, committed := fun _ => 0 }
  sessTickets := []
  ticket := 1
  hasStaging := false

/-- Engine counters with one running task. -/
def c2Es : EngineState where
  runningTasks := 1
  noPagingRunningTasks := 1

/-- C2, counterexample: an operation completes successfully
(`taskStopped` with failed = false) with its session alive, but because
verbose logging level 2 is off the session's `totalExecutedOp` stays at
0 instead of being incremented to 1 as the claim states. -/
theorem taskStopped_vlog_claim_false :
    c2Ctx.sessAlive = true
  ∧ (taskStopped c2Ctx false c2Rc c2Es 0).totalExecutedOp = 0
  ∧ ¬ (taskStopped c2Ctx false c2Rc c2Es 0).totalExecutedOp = 0 + 1 := by
  exact ⟨rfl, rfl, by decide⟩

/-- C2, amended: for every successful completion (`taskStopped` with
failed = false), whatever the logging level and session liveness,
`runningTasks` is decremented, `noPagingRunningTasks` is decremented
exactly when the operation is synchronous, and staging is released; the
owning session's `totalExecutedOp` is incremented by one if and only if
`VLOG_IS_ON(2)` holds and the session is still alive, and is left
untouched otherwise. -/
theorem taskStopped_done_counters (ctx : TaskCtx) (rc : RCState)
    (es : EngineState) (total : Nat) :
    (taskStopped ctx false rc es total).es.runningTasks
      = es.runningTasks - 1
  ∧ (ctx.isAsync = false →
      (taskStopped ctx false rc es total).es.noPagingRunningTasks
        = es.noPagingRunningTasks - 1)
  ∧ (ctx.isAsync = true →
      (taskStopped ctx false rc es total).es.noPagingRunningTasks
        = es.noPagingRunningTasks)
  ∧ (taskStopped ctx false rc es total).rc.hasStaging = false
  ∧ (taskStopped ctx false rc es total).totalExecutedOp
      = (if ctx.vlogOn && ctx.sessAlive then total + 1 else total)
  ∧ (ctx.vlogOn = true ∧ ctx.sessAlive = true ↔
      (taskStopped ctx false rc es total).totalExecutedOp = total + 1) := by
  have htot : (taskStopped ctx false rc es total).totalExecutedOp
      = (if ctx.vlogOn && ctx.sessAlive then total + 1 else total) := by
    rcases hv : ctx.vlogOn <;> rcases ha : ctx.sessAlive <;>
      simp [taskStopped, hv, ha]
  refine ⟨rfl, ?_, ?_, releaseStaging_hasStaging rc, htot, ?_⟩
  · intro h
    simp [taskStopped, h]
  · intro h
    simp [taskStopped, h]
  · rw [htot]
    rcases hv : ctx.vlogOn <;> rcases ha : ctx.sessAlive <;> simp [hv, ha]

/-- Lifecycle context with verbose logging on, session alive, sync op. -/
def c2CtxOn : TaskCtx where
  vlogOn := true
  sessAlive := true
  isAsync := false

/-- C2, witness for the amended theorem: with logging on and the session
alive, a successful stop of a sync op takes `totalExecutedOp` from 5 to
6, `runningTasks` from 3 to 2 and `noPagingRunningTasks` from 2 to 1. -/
theorem taskStopped_done_counters_witness :
    (taskStopped c2CtxOn false c2Rc ⟨3, 2⟩ 5).totalExecutedOp = 6
  ∧ (taskStopped c2CtxOn false c2Rc ⟨3, 2⟩ 5).es.runningTasks = 2
  ∧ (taskStopped c2CtxOn false c2Rc ⟨3, 2⟩ 5).es.noPagingRunningTasks
      = 1 := by
  have h := taskStopped_done_counters c2CtxOn c2Rc ⟨3, 2⟩ 5
  refine ⟨h.2.2.2.2.2.mp ⟨rfl, rfl⟩, ?_, ?_⟩
  · rw [h.1]
    decide
  · rw [h.2.1 rfl]
    decide

/-- C6: the `memFailure` callback returns false and changes nothing when
the operation's weak session reference is expired, returns false and
changes nothing when the session's `protectOOM` is unset, and otherwise
stops the task as failed — releasing staging and decrementing
`runningTasks` (and `noPagingRunningTasks` for a sync op) without
touching `totalExecutedOp` — pushes the operation onto the back of the
session's front queue, and returns true. -/
theorem memFailure_behavior (ctx : TaskCtx) (opId : Nat) (protect : Bool)
    (rc : RCState) (es : EngineState) (total : Nat) (q : List Nat) :
    (ctx.sessAlive = false →
       memFailure ctx opId protect rc es total q
         = { ret := false, rc := rc, es := es, totalExecutedOp := total
           , queue := q })
  ∧ (ctx.sessAlive = true → protect = false →
       memFailure ctx opId protect rc es total q
         = { ret := false, rc := rc, es := es, totalExecutedOp := total
           , queue := q })
  ∧ (ctx.sessAlive = true → protect = true →
       (memFailure ctx opId protect rc es total q).ret = true
     ∧ (memFailure ctx opId protect rc es total q).rc.hasStaging = false
     ∧ (memFailure ctx opId protect rc es total q).es.runningTasks
         = es.runningTasks - 1
     ∧ (ctx.isAsync = false →
         (memFailure ctx opId protect rc es total q).es.noPagingRunningTasks
           = es.noPagingRunningTasks - 1)
     ∧ (ctx.isAsync = true →
         (memFailure ctx opId protect rc es total q).es.noPagingRunningTasks
           = es.noPagingRunningTasks)
     ∧ (memFailure ctx opId protect rc es total q).totalExecutedOp = total
     ∧ (memFailure ctx opId protect rc es total q).queue = q ++ [opId]) := by
  refine ⟨?_, ?_, ?_⟩
  · intro h
    simp [memFailure, h]
  · intro h1 h2
    simp [memFailure, h1, h2]
  · intro h1 h2
    have hred : memFailure ctx opId protect rc es total q
        = { ret := true
            rc := (taskStopped ctx true rc es total).rc
            es := (taskStopped ctx true rc es total).es
            totalExecutedOp := (taskStopped ctx true rc es total).totalExecutedOp
            queue := q ++ [opId] } := by
      simp [memFailure, h1, h2]
    rw [hred]
    refine ⟨rfl, releaseStaging_hasStaging rc, rfl, ?_, ?_, ?_, rfl⟩
    · intro h
      simp [taskStopped, h]
    · intro h
      simp [taskStopped, h]
    · simp [taskStopped]

/-- Lifecycle context: logging off, session alive, synchronous op. -/
def c6Ctx : TaskCtx where
  vlogOn := false
  sessAlive := true
  isAsync := false

/-- C6, witness: with `protectOOM` set, a memory failure of op 7 returns
true and requeues the op behind the already-queued op 9. -/
theorem memFailure_behavior_witness :
    (memFailure c6Ctx 7 true c2Rc ⟨1, 1⟩ 0 [9]).ret = true
  ∧ (memFailure c6Ctx 7 true c2Rc ⟨1, 1⟩ 0 [9]).queue = [9, 7] := by
  have h := (memFailure_behavior c6Ctx 7 true c2Rc ⟨1, 1⟩ 0 [9]).2.2 rfl rfl
  exact ⟨h.1, by simpa using h.2.2.2.2.2.2⟩

/-- C7: `submitTask` drops the operation and returns null when the weak
session reference is expired; returns the operation unscheduled when its
resource context is not good; returns the operation unscheduled when the
worker pool is full; and returns null with the closure handed to the
pool otherwise. -/
theorem submitTask_outcomes (sessAlive rctxGood poolFull : Bool)
    (opId : Nat) :
    (sessAlive = false →
       submitTask sessAlive rctxGood poolFull opId
         = { returnedOp := none, handedToPool := false })
  ∧ (sessAlive = true → rctxGood = false →
       submitTask sessAlive rctxGood poolFull opId
         = { returnedOp := some opId, handedToPool := false })
  ∧ (sessAlive = true → rctxGood = true → poolFull = true →
       submitTask sessAlive rctxGood poolFull opId
         = { returnedOp := some opId, handedToPool := false })
  ∧ (sessAlive = true → rctxGood = true → poolFull = false →
       submitTask sessAlive rctxGood poolFull opId
         = { returnedOp := none, handedToPool := true }) := by
  refine ⟨?_, ?_, ?_, ?_⟩ <;> intros <;> simp_all [submitTask, tryRun]

/-- C7, witness: a live session, a good resource context and a free pool
give a scheduled op and a null return. -/
theorem submitTask_outcomes_witness :
    submitTask true true false 42
      = { returnedOp := none, handedToPool := true } :=
  (submitTask_outcomes true true false 42).2.2.2 rfl rfl rfl
